import Mathlib

/-!
Verification of the mcp-chat-context session store and search engine
(`src/server/src/database/database-better.ts` and the content processor in
`src/server/src/server.ts`), as a shallow embedding.

Modelling conventions:
* TypeScript strings are `List Char` (`Str`); Unicode-aware JS operations
  (`toLowerCase`, the regex classes `\w` and `\s`) are modelled on their
  ASCII behaviour, which is also what SQLite's `LIKE` folds.
* SQLite rows are kept as a Lean list in insertion (rowid) order; the FTS5
  virtual table is a list of `FtsEntry` present exactly when the capability
  probe succeeded (`Store.fts = some entries`). The table is declared with
  `content='chat_sessions'` (external-content FTS5), so an entry models the
  posting set one FTS write contributed for a rowid (= the session id in
  this model); column values, `id` included, are read back through the
  content table at query time, and writes that try to locate old values
  through already-mutated content rows miss them.
* Session ids (`generateId` builds them from `Date.now()` plus a random
  suffix) are modelled as a fresh-id counter `Store.nextId`; the clock
  (`new Date().toISOString()`) is passed in as an explicit `now` argument.
* The FTS5 `MATCH` operator is implemented by the SQLite engine, outside
  this repository, so indexed-path search takes the match predicate as a
  parameter `m : Str → FtsEntry → Bool`.
* Fallible SQL (a statement SQLite refuses to prepare) is `Except SqlError`.
-/

namespace ChatContext

/-- Source strings are modelled as lists of characters. -/
abbrev Str := List Char

/-- Coerce a Lean string literal into the `Str` model. -/
def str (s : String) : Str := s.data

/-- JS `String.prototype.toLowerCase`, restricted to its ASCII behaviour
(also the folding SQLite `LIKE` applies). -/
def toLower (s : Str) : Str := s.map Char.toLower

/-- JS truthiness of an optional string value: `undefined` and `''` are falsy. -/
def truthyS : Option Str → Bool
  | some s => !s.isEmpty
  | none => false

/-- JS truthiness of an optional numeric value: `undefined` and `0` are falsy. -/
def truthyN : Option Int → Bool
  | some n => n != 0
  | none => false

/-- SQLite binary comparison (`memcmp` on UTF-8, i.e. lexicographic by
code point) rendered on `Str`: `strLtb a b` is `a < b`. -/
def strLtb : Str → Str → Bool
  | [], [] => false
  | [], _ :: _ => true
  | _ :: _, [] => false
  | a :: s, b :: t => if a < b then true else if b < a then false else strLtb s t

/-- Non-strict SQLite string comparison, `a <= b`. -/
def strLeb (a b : Str) : Bool := !strLtb b a

/-- The `agent_type` column's CHECK constraint admits exactly these values
(`createTables`, database-better.ts:78). -/
inductive AgentType
  | claude
  | cursor
  | other
deriving DecidableEq

/-- Rendering of an `agent_type` value as the TEXT stored in the column. -/
def agentTypeStr : AgentType → Str
  | .claude => str "claude"
  | .cursor => str "cursor"
  | .other => str "other"

/-- A row of `chat_sessions` (`createTables`, database-better.ts:73-85).
`tags` holds the serialized JSON array exactly as the column does. -/
structure ChatSession where
  id : Nat
  title : Str
  agent_id : Str
  agent_type : AgentType
  project_context : Option Str
  original_content : Str
  tags : Str
  created_at : Str
  updated_at : Str
deriving DecidableEq

/-- One posting set of the `chat_sessions_fts` FTS5 virtual table
(database-better.ts:98-107), declared with `content='chat_sessions'`:
`id` is the rowid the postings are filed under (coinciding with the
session's id here), and the three text fields are the indexed values the
contributing write supplied. -/
structure FtsEntry where
  id : Nat
  title : Str
  original_content : Str
  tags : Str
deriving DecidableEq

/-- The FTS entry the triggers keep for a given row. -/
def projEntry (s : ChatSession) : FtsEntry :=
  { id := s.id, title := s.title, original_content := s.original_content, tags := s.tags }

/-- The persistent store: the `chat_sessions` table in rowid order, the FTS
table when the capability probe found FTS5 (`checkFTS5Support`), and the
fresh-id counter modelling `generateId`. -/
structure Store where
  table : List ChatSession
  fts : Option (List FtsEntry)
  nextId : Nat
deriving DecidableEq

/-- The fields a client supplies to `createSession`
(`Omit<ChatSession, 'id' | 'created_at' | 'updated_at'>`). -/
structure SessionInput where
  title : Str
  agent_id : Str
  agent_type : AgentType
  project_context : Option Str
  original_content : Str
  tags : Str
deriving DecidableEq

/-- The `chat_sessions_ai` AFTER INSERT trigger (database-better.ts:124-127):
the insert files the new row's postings under the next FTS rowid, which
coincides with the freshly inserted content row's rowid. -/
def ftsAfterInsert (row : ChatSession) (l : List FtsEntry) : List FtsEntry :=
  l ++ [projEntry row]

/-- The `chat_sessions_au` AFTER UPDATE trigger (database-better.ts:133-139)
on the external-content table: an FTS5 UPDATE removes the postings of the
values it reads back through the content table — which at AFTER-UPDATE time
already holds the new row, so the old values' postings are never removed —
and then indexes the new values. Net effect on the indexed token sets: the
old entry survives and an entry for the new values is added under the same
rowid. (FTS5 documents delete-by-mismatched-values as corrupting; this
models the posting-retention behaviour the statement actually produces.) -/
def ftsAfterUpdate (row : ChatSession) (l : List FtsEntry) : List FtsEntry :=
  l ++ [projEntry row]

/-- The method `createSession` (database-better.ts:149-183): assign a fresh
id, stamp both timestamps with `now`, insert the row; the insert fires the
FTS trigger when the FTS table exists. Returns the new id. -/
def createSession (inp : SessionInput) (now : Str) (st : Store) : Nat × Store :=
  let id := st.nextId
  let row : ChatSession :=
    { id := id, title := inp.title, agent_id := inp.agent_id, agent_type := inp.agent_type,
      project_context := inp.project_context, original_content := inp.original_content,
      tags := inp.tags, created_at := now, updated_at := now }
  (id, { table := st.table ++ [row], fts := st.fts.map (ftsAfterInsert row),
         nextId := st.nextId + 1 })

/-- The method `getSession` (database-better.ts:185-192):
`SELECT * FROM chat_sessions WHERE id = ?`, first row or null. -/
def getSession (id : Nat) (st : Store) : Option ChatSession :=
  st.table.find? (fun s => s.id == id)

/-- A `Partial<ChatSession>` argument to `updateSession`. Every column can be
present; the method only ever reads `title`, `original_content` and `tags`. -/
structure PartialUpdate where
  id : Option Nat := none
  title : Option Str := none
  agent_id : Option Str := none
  agent_type : Option AgentType := none
  project_context : Option Str := none
  original_content : Option Str := none
  tags : Option Str := none
  created_at : Option Str := none
  updated_at : Option Str := none
deriving DecidableEq

/-- The guard pattern of `updateSession` (database-better.ts:346-357): a field
contributes to the SET list iff its value is truthy. -/
def hasTruthyFields (u : PartialUpdate) : Bool :=
  truthyS u.title || truthyS u.original_content || truthyS u.tags

/-- Effect of the generated `UPDATE chat_sessions SET ...` on one row: each
truthy field is overwritten and `updated_at` is set to `now`
(database-better.ts:346-365). -/
def applyFields (u : PartialUpdate) (now : Str) (s : ChatSession) : ChatSession :=
  let s1 := if truthyS u.title then { s with title := u.title.getD [] } else s
  let s2 := if truthyS u.original_content then
      { s1 with original_content := u.original_content.getD [] } else s1
  let s3 := if truthyS u.tags then { s2 with tags := u.tags.getD [] } else s2
  { s3 with updated_at := now }

/-- The method `updateSession` (database-better.ts:340-370): build the SET
list from the truthy fields, return false when it is empty, otherwise run
`UPDATE ... WHERE id = ?` (firing the FTS update trigger once per updated
row) and report `result.changes > 0`. -/
def updateSession (id : Nat) (u : PartialUpdate) (now : Str) (st : Store) : Bool × Store :=
  if !hasTruthyFields u then (false, st)
  else
    let matched := st.table.filter (fun s => s.id == id)
    let table := st.table.map (fun s => if s.id == id then applyFields u now s else s)
    let fts := st.fts.map (fun l =>
      (matched.map (applyFields u now)).foldl (fun acc r => ftsAfterUpdate r acc) l)
    (decide (0 < matched.length), { st with table := table, fts := fts })

/-- The method `deleteSession` (database-better.ts:372-379):
`DELETE FROM chat_sessions WHERE id = ?`; returns `result.changes > 0`.
The `chat_sessions_ad` AFTER DELETE trigger runs
`DELETE FROM chat_sessions_fts WHERE id = old.id`, but on the
external-content table the `id` column is read through `chat_sessions`,
where the row is already gone, so no FTS row matches and the index keeps
the dead row's postings: the FTS component is unchanged. -/
def deleteSession (id : Nat) (st : Store) : Bool × Store :=
  let removed := st.table.filter (fun s => s.id == id)
  (decide (0 < removed.length),
   { st with table := st.table.filter (fun s => !(s.id == id)) })

/-- The method `deleteOldSessions` (database-better.ts:406-418):
`DELETE FROM chat_sessions WHERE created_at < ?` with the cutoff ISO string.
The `new Date()` arithmetic producing `cutoffISO` (now minus N days,
serialized by `toISOString`) happens outside the store and is passed in.
Returns `result.changes`, the number of rows deleted. As in
`deleteSession`, the per-row AFTER DELETE trigger reads `id` through the
already-deleted content rows and removes nothing, so the FTS component is
unchanged. -/
def deleteOldSessions (cutoffISO : Str) (st : Store) : Nat × Store :=
  let removed := st.table.filter (fun s => strLtb s.created_at cutoffISO)
  (removed.length,
   { st with table := st.table.filter (fun s => !strLtb s.created_at cutoffISO) })

/-- SQLite `LIKE` pattern matching (no ESCAPE clause): `%` matches any
sequence, `_` any single character, every other pattern character itself.
Both sides are already case-folded by the caller. -/
def likeMatches : Str → Str → Bool
  | [], [] => true
  | [], _ :: _ => false
  | c :: p, [] => if c = '%' then likeMatches p [] else false
  | c :: p, d :: s =>
    if c = '%' then likeMatches p (d :: s) || likeMatches (c :: p) s
    else if c = '_' then likeMatches p s
    else c == d && likeMatches p s
termination_by p s => (p.length, s.length)

/-- A column value tested against the pattern `'%' + q + '%'`
(the `searchTerm` construction, database-better.ts:225), with the
case-insensitive folding SQLite `LIKE` performs on ASCII. -/
def sqlLike (q col : Str) : Bool :=
  likeMatches ('%' :: (toLower q ++ ['%'])) (toLower col)

/-- The fallback-path text condition of `searchSessions`
(database-better.ts:216-226): `title LIKE ? OR original_content LIKE ? OR
tags LIKE ?` with the same `%query%` term bound three times. -/
def fallbackCond (q : Str) (s : ChatSession) : Bool :=
  sqlLike q s.title || sqlLike q s.original_content || sqlLike q s.tags

/-- The `SearchFilters` descriptor (schema.ts). -/
structure SearchFilters where
  query : Option Str := none
  agentType : Option Str := none
  projectContext : Option Str := none
  tags : Option (List Str) := none
  dateFrom : Option Str := none
  dateTo : Option Str := none
  limit : Option Int := none
  offset : Option Int := none
deriving DecidableEq

/-- Errors surfaced by `better-sqlite3`: a statement SQLite refuses to
prepare throws before any row is touched. -/
inductive SqlError
  | prepareFailed
deriving DecidableEq

/-- Ordering used by `ORDER BY created_at DESC`: a row may precede another
iff its `created_at` is not smaller. -/
def createdDesc (a b : ChatSession) : Prop := strLeb b.created_at a.created_at = true

instance : DecidableRel createdDesc := fun _ _ => decEq _ _

/-- Sorting step of the non-FTS paths: `ORDER BY created_at DESC`. -/
def sortByCreatedDesc (rows : List ChatSession) : List ChatSession :=
  rows.insertionSort createdDesc

/-- Text-match step of `searchSessions` (database-better.ts:203-229): the
FTS join when a truthy query meets an existing FTS table, the triple-LIKE
fallback when only the query is truthy, otherwise all rows. The engine-level
semantics of `MATCH` is the parameter `m`. -/
def searchBase (m : Str → FtsEntry → Bool) (filters : SearchFilters) (st : Store) :
    List ChatSession :=
  match filters.query with
  | some q =>
    if q.isEmpty then st.table
    else
      match st.fts with
      | some entries => st.table.filter (fun s => entries.any (fun e => e.id == s.id && m q e))
      | none => st.table.filter (fallbackCond q)
  | none => st.table

/-- Conjunctive filter chain of `searchSessions` (database-better.ts:231-259):
agent type, project context, date range and the OR-combined tag LIKEs, each
appended only when the filter value is truthy (for tags: a non-empty array). -/
def applyFilters (filters : SearchFilters) (rows : List ChatSession) : List ChatSession :=
  let rows := match filters.agentType with
    | some a => if a.isEmpty then rows else rows.filter (fun s => agentTypeStr s.agent_type == a)
    | none => rows
  let rows := match filters.projectContext with
    | some p =>
      if p.isEmpty then rows
      else rows.filter (fun s =>
        match s.project_context with
        | some pc => pc == p
        | none => false)
    | none => rows
  let rows := match filters.dateFrom with
    | some d => if d.isEmpty then rows else rows.filter (fun s => strLeb d s.created_at)
    | none => rows
  let rows := match filters.dateTo with
    | some d => if d.isEmpty then rows else rows.filter (fun s => strLeb s.created_at d)
    | none => rows
  match filters.tags with
  | some ts =>
    if 0 < ts.length then
      rows.filter (fun s => ts.any (fun t => sqlLike ('"' :: (t ++ ['"'])) s.tags))
    else rows
  | none => rows

/-- Ordering step of `searchSessions` (database-better.ts:261-266):
`ORDER BY rank` (engine-side, modelled as keeping join order) on the FTS
path, `ORDER BY created_at DESC` otherwise. -/
def sortRows (filters : SearchFilters) (st : Store) (rows : List ChatSession) :
    List ChatSession :=
  if truthyS filters.query && st.fts.isSome then rows else sortByCreatedDesc rows

/-- The method `searchSessions` (database-better.ts:194-282). A truthy
`offset` with a falsy `limit` appends `OFFSET ?` to a statement that has no
`LIMIT` clause, which SQLite refuses to prepare, so `db.prepare(sql)` throws
before any row is read. Otherwise: text match, conjunctive filters, ordering,
then `LIMIT`/`OFFSET` (a negative SQL LIMIT means no limit; a negative
OFFSET skips nothing). -/
def searchSessions (m : Str → FtsEntry → Bool) (filters : SearchFilters) (st : Store) :
    Except SqlError (List ChatSession) :=
  if truthyN filters.offset && !truthyN filters.limit then .error .prepareFailed
  else
    let rows := sortRows filters st (applyFilters filters (searchBase m filters st))
    let rows := if truthyN filters.offset then rows.drop (filters.offset.getD 0).toNat else rows
    let rows :=
      if truthyN filters.limit then
        if (filters.limit.getD 0) < 0 then rows else rows.take (filters.limit.getD 0).toNat
      else rows
    .ok rows

/-- Modelled from the spec: the FTS5 `MATCH` operator lives in the SQLite
engine, outside this repository. An exact-title query is the match predicate
that accepts exactly the index entries whose `title` column equals the
query. -/
def titleExactMatch (q : Str) (e : FtsEntry) : Bool := e.title == q

/-- The regex class `\w`, i.e. `[A-Za-z0-9_]`. -/
def isWordCharJS (c : Char) : Bool := c.isAlphanum || c == '_'

/-- The regex class `\s` on the whitespace that occurs in chat text. -/
def isSpaceJS (c : Char) : Bool := c == ' ' || c == '\t' || c == '\n' || c == '\r'

/-- One step of `.replace(/[^\w\s]/g, ' ')`. -/
def cleanChar (c : Char) : Char := if isWordCharJS c || isSpaceJS c then c else ' '

/-- Accumulator pass splitting a string on whitespace runs
(`.split(/\s+/)`; the empty fragments JS may produce at the edges are
dropped here and are discarded by the length filter in the source anyway). -/
def splitWordsGo : Str → Str → List Str
  | [], acc => if acc.isEmpty then [] else [acc.reverse]
  | c :: rest, acc =>
    if isSpaceJS c then
      if acc.isEmpty then splitWordsGo rest [] else acc.reverse :: splitWordsGo rest []
    else splitWordsGo rest (c :: acc)

/-- Split a string into its maximal non-whitespace runs. -/
def splitWords (s : Str) : List Str := splitWordsGo s []

/-- The stop-word list of `extractKeyTermsFromContent`
(database-better.ts:534). -/
def stopWords : List Str :=
  [str "the", str "and", str "that", str "this", str "with", str "from", str "they",
   str "have", str "been", str "said", str "each", str "which", str "their", str "will",
   str "about", str "would", str "there", str "could", str "other"]

/-- Tokenization pipeline of `extractKeyTermsFromContent`
(database-better.ts:529-534): lowercase, strip non-word non-space characters,
split on whitespace, keep tokens longer than 3 that are not stop words. -/
def contentWords (content : Str) : List Str :=
  (((splitWords ((toLower content).map cleanChar)).filter
      (fun w => 3 < w.length)).filter (fun w => !stopWords.contains w))

/-- Increment the count of `w` in an association list, adding it at the end
on first sight (JS object property insertion order). -/
def bump (w : Str) : List (Str × Nat) → List (Str × Nat)
  | [] => [(w, 1)]
  | (x, n) :: rest => if x == w then (x, n + 1) :: rest else (x, n) :: bump w rest

/-- The `wordCount` object of `extractKeyTermsFromContent`
(database-better.ts:537-540), as an association list in first-occurrence
order. -/
def wordCounts (ws : List Str) : List (Str × Nat) := ws.foldl (fun acc w => bump w acc) []

/-- Ordering used by `.sort(([,a],[,b]) => b - a)`: descending count. -/
def countDesc (a b : Str × Nat) : Prop := b.2 ≤ a.2

instance : DecidableRel countDesc := fun _ _ => Nat.decLe _ _

/-- The frequency-sorted entry list of `extractKeyTermsFromContent`
(database-better.ts:542-543); JS `Array.prototype.sort` is stable, matching
insertion sort. -/
def sortedWordCounts (content : Str) : List (Str × Nat) :=
  (wordCounts (contentWords content)).insertionSort countDesc

/-- The method `extractKeyTermsFromContent` (database-better.ts:527-546):
top 8 tokens by in-text frequency. -/
def extractKeyTermsFromContent (content : Str) : List Str :=
  ((sortedWordCounts content).take 8).map Prod.fst

/-- The method `findSimilarSessions` (database-better.ts:469-525): extract
key terms; empty terms short-circuit to an empty list; on the FTS path the
terms are joined with `' OR '` into one MATCH query (ordered by engine rank,
modelled as join order); on the fallback path each term contributes its
three LIKE predicates, OR-combined, ordered by `created_at DESC`; both paths
end with `LIMIT ?`. -/
def findSimilarSessions (m : Str → FtsEntry → Bool) (content : Str) (limit : Int)
    (st : Store) : List ChatSession :=
  let keyTerms := extractKeyTermsFromContent content
  if keyTerms.isEmpty then []
  else
    let rows :=
      match st.fts with
      | some entries =>
        let searchQuery := List.intercalate (str " OR ") keyTerms
        st.table.filter (fun s => entries.any (fun e => e.id == s.id && m searchQuery e))
      | none =>
        sortByCreatedDesc (st.table.filter (fun s => keyTerms.any (fun t => fallbackCond t s)))
    if limit < 0 then rows else rows.take limit.toNat

/-- The `techKeywords` vocabulary of `ChatContentProcessor.extractKeyTopics`
(server.ts); entries are regex sources, so `c\+\+` carries its escaping
backslashes exactly as the JS string literal does. -/
def techKeywords : List Str :=
  [str "javascript", str "typescript", str "python", str "java", str "c\\+\\+", str "c#",
   str "go", str "rust", str "php", str "react", str "vue", str "angular", str "node",
   str "express", str "django", str "flask", str "spring", str "sql", str "mongodb",
   str "postgresql", str "mysql", str "redis", str "docker", str "kubernetes", str "aws",
   str "azure", str "gcp", str "git", str "github", str "api", str "rest", str "graphql",
   str "html", str "css", str "json", str "xml", str "yaml", str "cli", str "bash",
   str "shell"]

/-- The `conceptKeywords` vocabulary of `extractKeyTopics` (server.ts). -/
def conceptKeywords : List Str :=
  [str "authentication", str "authorization", str "database", str "deployment",
   str "testing", str "debugging", str "optimization", str "performance", str "security",
   str "error handling", str "logging", str "monitoring", str "caching", str "validation",
   str "migration", str "refactoring", str "configuration", str "environment", str "build",
   str "ci/cd"]

/-- Strip the regex escaping backslashes from a keyword to obtain the
literal text the pattern matches. -/
def unescape (s : Str) : Str := s.filter (fun c => !(c == '\\'))

/-- Wordness of an optional character; out of range counts as non-word for
the `\b` assertion. -/
def isWordOpt : Option Char → Bool
  | some c => isWordCharJS c
  | none => false

/-- Whether the literal `p` occurs in `s` starting at index `i`. -/
def occAt (p s : Str) (i : Nat) : Bool := (s.drop i).take p.length == p

/-- The test `new RegExp('\\b' + keyword + '\\b', 'gi').test(content)` for a
literal keyword (both sides pre-lowercased by the caller): an occurrence
with a `\b` word boundary on each side, where `\b` holds when the wordness
of the adjacent text character differs from that of the pattern's edge
character. -/
def wholeWordMatch (p s : Str) : Bool :=
  !p.isEmpty &&
    (List.range (s.length + 1)).any (fun i =>
      occAt p s i &&
        (isWordOpt (if i = 0 then none else s.get? (i - 1)) != isWordCharJS (p.headD ' ')) &&
        (isWordOpt (s.get? (i + p.length)) != isWordCharJS (p.getLastD ' ')))

/-- The keyword loop of `extractKeyTopics` (server.ts): every vocabulary
entry whose whole-word regex fires is added, lowercased (with its escaping
backslashes kept, exactly as `topics.add(keyword.toLowerCase())` does). -/
def kwTopics (content : Str) : List Str :=
  ((techKeywords ++ conceptKeywords).filter
      (fun kw => wholeWordMatch (toLower (unescape kw)) (toLower content))).map toLower

/-- Split off the maximal prefix free of the given character. -/
def spanNot (ch : Char) : Str → Str × Str
  | [] => ([], [])
  | c :: rest =>
    if c = ch then ([], c :: rest)
    else
      let pr := spanNot ch rest
      (c :: pr.1, pr.2)

/-- Fuel-indexed body of the quoted-term scan; every scan step consumes at
least one character, so a fuel of the string's length is always enough and
the fuel never runs out before the text does. -/
def quotedScanGo : Nat → Str → List Str
  | 0, _ => []
  | _ + 1, [] => []
  | fuel + 1, c :: rest =>
    if c = '"' then
      match (spanNot '"' rest).2 with
      | '"' :: rem2 =>
        if 3 ≤ (spanNot '"' rest).1.length && (spanNot '"' rest).1.length ≤ 30 then
          (spanNot '"' rest).1 :: quotedScanGo fuel rem2
        else quotedScanGo fuel ((spanNot '"' rest).2)
      | _ => quotedScanGo fuel rest
    else quotedScanGo fuel rest

/-- The global scan of `content.match(/"([^"]{3,30})"/g)` (server.ts): at
each opening quote the run up to the next quote matches iff its length is
between 3 and 30; on success the scan resumes after the closing quote, on
failure at the closing quote (no match can start inside the run). -/
def quotedScan (s : Str) : List Str := quotedScanGo s.length s

/-- The per-match body of the quoted-term loop (server.ts): strip the
quotes, lowercase, keep lengths strictly between 2 and 30. -/
def quotedTopics (content : Str) : List Str :=
  ((quotedScan content).map toLower).filter (fun t => decide (2 < t.length ∧ t.length < 30))

/-- Split off the maximal `\w` prefix. -/
def spanWord : Str → Str × Str
  | [] => ([], [])
  | c :: rest =>
    if isWordCharJS c then
      let pr := spanWord rest
      (c :: pr.1, pr.2)
    else ([], c :: rest)

/-- Fuel-indexed body of the extension scan; a fuel of the string's length
is always enough since every step consumes at least one character. -/
def extScanGo : Nat → Str → List Str
  | 0, _ => []
  | _ + 1, [] => []
  | fuel + 1, c :: rest =>
    if c = '.' then
      if 2 ≤ (spanWord rest).1.length && (spanWord rest).1.length ≤ 4 then
        ('.' :: (spanWord rest).1) :: extScanGo fuel ((spanWord rest).2)
      else extScanGo fuel rest
    else extScanGo fuel rest

/-- The global scan of `content.match(/\.\w{2,4}\b/g)` (server.ts): a dot
followed by a maximal word-character run matches iff the run's length is 2
to 4 (a longer run makes the trailing `\b` fail at every greedy
backtracking width). -/
def extScan (s : Str) : List Str := extScanGo s.length s

/-- The file-extension additions of `extractKeyTopics` (server.ts), each
lowercased. -/
def extTopics (content : Str) : List Str := (extScan content).map toLower

/-- Deduplication with JS `Set` semantics: keep the first occurrence,
preserve insertion order. -/
def dedupKeepFirst (l : List Str) : List Str := dedupGo [] l
where
  dedupGo (seen : List Str) : List Str → List Str
    | [] => []
    | x :: xs => if seen.contains x then dedupGo seen xs else x :: dedupGo (x :: seen) xs

/-- The method `ChatContentProcessor.extractKeyTopics` (server.ts:590-640):
keyword matches, then quoted terms, then extension tokens, deduplicated in
insertion order and capped at 20. -/
def extractKeyTopics (content : Str) : List Str :=
  (dedupKeepFirst (kwTopics content ++ quotedTopics content ++ extTopics content)).take 20

/-! Order-theoretic facts about the modelled SQLite string comparison. -/

theorem strLtb_irrefl : ∀ a : Str, strLtb a a = false
  | [] => rfl
  | _ :: s => by simp [strLtb, strLtb_irrefl s]

theorem strLtb_asymm : ∀ a b : Str, strLtb a b = true → strLtb b a = false
  | [], [] => by simp [strLtb]
  | [], _ :: _ => by simp [strLtb]
  | _ :: _, [] => by simp [strLtb]
  | a :: s, b :: t => by
    intro hab
    by_cases h1 : a < b
    · have h2 : ¬ b < a := lt_asymm h1
      simp [strLtb, h1, h2]
    · by_cases h2 : b < a
      · simp [strLtb, h1, h2] at hab
      · simp only [strLtb, if_neg h1, if_neg h2] at hab
        simp only [strLtb, if_neg h2, if_neg h1]
        exact strLtb_asymm s t hab

theorem strLtb_conn : ∀ a b : Str, strLtb a b = false → strLtb b a = false → a = b
  | [], [] => by simp
  | [], _ :: _ => by simp [strLtb]
  | _ :: _, [] => by simp [strLtb]
  | a :: s, b :: t => by
    intro h1 h2
    by_cases hab : a < b
    · simp [strLtb, hab] at h1
    · by_cases hba : b < a
      · simp [strLtb, hba] at h2
      · have hc : a = b := le_antisymm (not_lt.1 hba) (not_lt.1 hab)
        subst hc
        simp only [strLtb, if_neg hab, if_neg hba] at h1 h2
        rw [strLtb_conn s t h1 h2]

theorem strLtb_trans : ∀ a b c : Str,
    strLtb a b = true → strLtb b c = true → strLtb a c = true
  | [], [], _ => by simp [strLtb]
  | [], _ :: _, [] => by intro _ h; simp [strLtb] at h
  | [], _ :: _, _ :: _ => by intros; simp [strLtb]
  | _ :: _, _, _ => by
    rename_i a s b c
    intro hab hbc
    match b, c with
    | [], _ => simp [strLtb] at hab
    | _ :: _, [] => simp [strLtb] at hbc
    | x :: t, y :: u =>
      by_cases h1 : a < x
      · by_cases h2 : x < y
        · have h3 : a < y := lt_trans h1 h2
          simp [strLtb, h3]
        · by_cases h3 : y < x
          · simp [strLtb, h2, h3] at hbc
          · have hxy : x = y := le_antisymm (not_lt.1 h3) (not_lt.1 h2)
            subst hxy
            simp [strLtb, h1]
      · by_cases h1' : x < a
        · simp [strLtb, h1, h1'] at hab
        · have hax : a = x := le_antisymm (not_lt.1 h1') (not_lt.1 h1)
          subst hax
          simp only [strLtb, if_neg h1, if_neg h1'] at hab
          by_cases h2 : a < y
          · simp [strLtb, h2]
          · by_cases h3 : y < a
            · simp [strLtb, h2, h3] at hbc
            · have hay : a = y := le_antisymm (not_lt.1 h3) (not_lt.1 h2)
              subst hay
              simp only [strLtb, if_neg h2, if_neg h3] at hbc ⊢
              exact strLtb_trans s t u hab hbc

theorem strLtb_false_trans {a b c : Str} (h1 : strLtb a b = false)
    (h2 : strLtb b c = false) : strLtb a c = false := by
  by_contra h
  rw [Bool.not_eq_false] at h
  by_cases hba : strLtb b a = true
  · have := strLtb_trans b a c hba h
    rw [this] at h2
    cases h2
  · have hb : strLtb b a = false := by
      cases hh : strLtb b a
      · rfl
      · exact absurd hh hba
    have : b = a := strLtb_conn b a hb h1
    subst this
    rw [h] at h2
    cases h2

instance : IsTotal ChatSession createdDesc :=
  ⟨fun a b => by
    unfold createdDesc strLeb
    by_cases h : strLtb a.created_at b.created_at = true
    · right
      rw [strLtb_asymm _ _ h]
      rfl
    · left
      rw [Bool.not_eq_true] at h
      rw [h]
      rfl⟩

instance : IsTrans ChatSession createdDesc :=
  ⟨fun a b c hab hbc => by
    unfold createdDesc strLeb at hab hbc ⊢
    rw [Bool.not_eq_true'] at hab hbc ⊢
    exact strLtb_false_trans hab hbc⟩

instance : IsTotal (Str × Nat) countDesc :=
  ⟨fun a b => Nat.le_total b.2 a.2⟩

instance : IsTrans (Str × Nat) countDesc :=
  ⟨fun _ _ _ hab hbc => Nat.le_trans hbc hab⟩

/-! Facts about the LIKE pattern matcher. -/

theorem likeMatches_allPercent : ∀ s : Str, likeMatches ['%'] s = true
  | [] => by simp [likeMatches]
  | _ :: s => by
    simp only [likeMatches, if_pos rfl]
    rw [likeMatches_allPercent s]
    simp

theorem likeMatches_percent_prepend :
    ∀ (u s p : Str), likeMatches p s = true → likeMatches ('%' :: p) (u ++ s) = true
  | [], s, p, h => by
    cases s with
    | nil => simpa [likeMatches] using h
    | cons d t => simp [likeMatches, h]
  | c :: u, s, p, h => by
    have ih := likeMatches_percent_prepend u s p h
    simp only [List.cons_append, likeMatches, if_pos rfl]
    rw [ih]
    simp

theorem likeMatches_literal_prepend :
    ∀ (q p s : Str), likeMatches p s = true → likeMatches (q ++ p) (q ++ s) = true
  | [], _, _, h => h
  | c :: q, p, s, h => by
    have ih := likeMatches_literal_prepend q p s h
    by_cases hc : c = '%'
    · subst hc
      simp only [List.cons_append, likeMatches, if_pos rfl]
      have := likeMatches_percent_prepend [] (q ++ s) (q ++ p) ih
      rw [List.nil_append] at this
      rw [this]
      simp
    · by_cases hu : c = '_'
      · subst hu
        simp only [List.cons_append, likeMatches, if_neg hc, if_pos rfl]
        exact ih
      · simp only [List.cons_append, likeMatches, if_neg hc, if_neg hu]
        simp [ih]

/-- A verbatim substring occurrence always satisfies the `LIKE '%q%'` test,
whatever wildcard characters the query itself contains. -/
theorem sqlLike_of_substring (q c : Str) (h : q <:+: c) : sqlLike q c = true := by
  obtain ⟨u, v, rfl⟩ := h
  unfold sqlLike toLower
  rw [List.map_append, List.map_append]
  have base : likeMatches ['%'] (v.map Char.toLower) = true := likeMatches_allPercent _
  have lit := likeMatches_literal_prepend (q.map Char.toLower) ['%'] (v.map Char.toLower) base
  have lift := likeMatches_percent_prepend (u.map Char.toLower)
    ((q.map Char.toLower) ++ (v.map Char.toLower)) ((q.map Char.toLower) ++ ['%']) lit
  rw [List.append_assoc]
  exact lift

/-! Sequences of mutating store operations, to exercise the trigger
behaviour across whole create/update/delete histories. -/

/-- One client-visible mutation of the store. -/
inductive Op
  | create (inp : SessionInput) (now : Str)
  | update (id : Nat) (u : PartialUpdate) (now : Str)
  | delete (id : Nat)

/-- Apply one operation, discarding the returned id / boolean. -/
def applyOp (st : Store) : Op → Store
  | .create inp now => (createSession inp now st).2
  | .update id u now => (updateSession id u now st).2
  | .delete id => (deleteSession id st).2

/-- Apply a sequence of operations in order. -/
def applyOps (st : Store) (ops : List Op) : Store := ops.foldl applyOp st

/-- The store right after `initialize()`: empty table, FTS table present
exactly when the capability probe succeeded. -/
def initStore (indexed : Bool) : Store :=
  { table := [], fts := if indexed then some [] else none, nextId := 0 }

theorem applyFields_id (u : PartialUpdate) (now : Str) (s : ChatSession) :
    (applyFields u now s).id = s.id := by
  simp only [applyFields]
  all_goals first
    | rfl
    | (split_ifs <;> rfl)

theorem applyFields_agent_id (u : PartialUpdate) (now : Str) (s : ChatSession) :
    (applyFields u now s).agent_id = s.agent_id := by
  simp only [applyFields]
  all_goals first
    | rfl
    | (split_ifs <;> rfl)

theorem applyFields_agent_type (u : PartialUpdate) (now : Str) (s : ChatSession) :
    (applyFields u now s).agent_type = s.agent_type := by
  simp only [applyFields]
  all_goals first
    | rfl
    | (split_ifs <;> rfl)

theorem applyFields_project_context (u : PartialUpdate) (now : Str) (s : ChatSession) :
    (applyFields u now s).project_context = s.project_context := by
  simp only [applyFields]
  all_goals first
    | rfl
    | (split_ifs <;> rfl)

theorem applyFields_created_at (u : PartialUpdate) (now : Str) (s : ChatSession) :
    (applyFields u now s).created_at = s.created_at := by
  simp only [applyFields]
  all_goals first
    | rfl
    | (split_ifs <;> rfl)

theorem applyFields_updated_at (u : PartialUpdate) (now : Str) (s : ChatSession) :
    (applyFields u now s).updated_at = now := by
  simp only [applyFields]

theorem applyFields_title_of_falsy (u : PartialUpdate) (now : Str) (s : ChatSession)
    (h : truthyS u.title = false) : (applyFields u now s).title = s.title := by
  simp only [applyFields, h, Bool.false_eq_true, if_false]
  all_goals first
    | rfl
    | (split_ifs <;> rfl)

theorem applyFields_content_of_falsy (u : PartialUpdate) (now : Str) (s : ChatSession)
    (h : truthyS u.original_content = false) :
    (applyFields u now s).original_content = s.original_content := by
  simp only [applyFields, h, Bool.false_eq_true, if_false]
  all_goals first
    | rfl
    | (split_ifs <;> rfl)

theorem applyFields_tags_of_falsy (u : PartialUpdate) (now : Str) (s : ChatSession)
    (h : truthyS u.tags = false) : (applyFields u now s).tags = s.tags := by
  simp only [applyFields, h, Bool.false_eq_true, if_false]
  all_goals first
    | rfl
    | (split_ifs <;> rfl)

theorem applyFields_tags_of_truthy (u : PartialUpdate) (now : Str) (s : ChatSession)
    (h : truthyS u.tags = true) : (applyFields u now s).tags = u.tags.getD [] := by
  simp only [applyFields, h, if_true]

theorem applyFields_title_of_truthy (u : PartialUpdate) (now : Str) (s : ChatSession)
    (h : truthyS u.title = true) : (applyFields u now s).title = u.title.getD [] := by
  simp only [applyFields, h, if_true]
  all_goals first
    | rfl
    | (split_ifs <;> rfl)

theorem applyFields_content_of_truthy (u : PartialUpdate) (now : Str) (s : ChatSession)
    (h : truthyS u.original_content = true) :
    (applyFields u now s).original_content = u.original_content.getD [] := by
  simp only [applyFields, h, if_true]
  all_goals first
    | rfl
    | (split_ifs <;> rfl)

/-! Claim theorems. -/

theorem find?_append_right {p : ChatSession → Bool} {l1 l2 : List ChatSession}
    (h : ∀ a ∈ l1, p a = false) : (l1 ++ l2).find? p = l2.find? p := by
  induction l1 with
  | nil => rfl
  | cons a l ih =>
    rw [List.cons_append, List.find?_cons_of_neg, ih]
    · intro b hb
      exact h b (List.mem_cons_of_mem a hb)
    · simp [h a (List.mem_cons_self a l)]

/-- C2: for all session field values, `createSession` followed by
`getSession` on the returned id yields a session whose fields equal the
input, except for the newly assigned id and the `created_at` / `updated_at`
timestamps, which are the insertion clock value. -/
theorem c2_create_get_roundtrip (inp : SessionInput) (now : Str) (st : Store)
    (hwf : ∀ s ∈ st.table, s.id < st.nextId) :
    ∃ row, getSession (createSession inp now st).1 (createSession inp now st).2 = some row ∧
      row.title = inp.title ∧ row.agent_id = inp.agent_id ∧
      row.agent_type = inp.agent_type ∧ row.project_context = inp.project_context ∧
      row.original_content = inp.original_content ∧ row.tags = inp.tags ∧
      row.created_at = now ∧ row.updated_at = now ∧ row.id = st.nextId := by
  refine ⟨{ id := st.nextId, title := inp.title, agent_id := inp.agent_id,
            agent_type := inp.agent_type, project_context := inp.project_context,
            original_content := inp.original_content, tags := inp.tags,
            created_at := now, updated_at := now },
          ?_, rfl, rfl, rfl, rfl, rfl, rfl, rfl, rfl, rfl⟩
  simp only [getSession, createSession]
  rw [find?_append_right]
  · simp
  · intro a ha
    exact beq_eq_false_iff_ne.2 (Nat.ne_of_lt (hwf a ha))

/-- Fixed sample input used to instantiate the round-trip theorem. -/
def inp0 : SessionInput :=
  { title := str "t", agent_id := str "a", agent_type := .claude,
    project_context := none, original_content := str "hello", tags := str "[]" }

/-- The freshly initialized indexed store. -/
def emptyStore : Store := { table := [], fts := some [], nextId := 0 }

theorem c2_witness :
    ∃ row, getSession (createSession inp0 (str "2024") emptyStore).1
        (createSession inp0 (str "2024") emptyStore).2 = some row ∧
      row.title = inp0.title ∧ row.agent_id = inp0.agent_id ∧
      row.agent_type = inp0.agent_type ∧ row.project_context = inp0.project_context ∧
      row.original_content = inp0.original_content ∧ row.tags = inp0.tags ∧
      row.created_at = str "2024" ∧ row.updated_at = str "2024" ∧
      row.id = emptyStore.nextId :=
  c2_create_get_roundtrip inp0 (str "2024") emptyStore (by simp [emptyStore])

/-- A concrete stored session. -/
def sess0 : ChatSession :=
  { id := 0, title := str "t", agent_id := str "a", agent_type := .claude,
    project_context := none, original_content := str "hello world",
    tags := str "[]", created_at := str "2024-01-01T00:00:00.000Z",
    updated_at := str "2024-01-01T00:00:00.000Z" }

/-- A store holding exactly `sess0`, fallback capability. -/
def st0 : Store := { table := [sess0], fts := none, nextId := 1 }

/-- A later clock value. -/
def now1 : Str := str "2024-02-01T00:00:00.000Z"

/-- C4 counterexample: session 0 exists, yet `updateSession` on an empty
partial returns false and leaves the store (including `updated_at`)
untouched — refuting both "returns false exactly when no session with that
id exists" and "always refreshes `updated_at`". -/
theorem c4_counterexample :
    sess0 ∈ st0.table ∧ updateSession 0 {} now1 st0 = (false, st0) := by
  constructor
  · simp [st0]
  · rfl

/-- C4 as amended: only truthy title / original_content / tags entries are
applied; when at least one is present the matched row's `updated_at` is
refreshed and a truthy tags value replaces the stored tags wholesale, and
the call returns true iff a session with that id exists; when none is
present the call returns false and changes nothing, whether or not the id
exists. -/
theorem c4_amended (id : Nat) (u : PartialUpdate) (now : Str) (st : Store) :
    ((updateSession id u now st).1 = true ↔
        hasTruthyFields u = true ∧ ∃ s ∈ st.table, s.id = id) ∧
    (hasTruthyFields u = false → updateSession id u now st = (false, st)) ∧
    (hasTruthyFields u = true → ∀ s ∈ st.table, s.id = id →
        applyFields u now s ∈ (updateSession id u now st).2.table ∧
        (applyFields u now s).updated_at = now ∧
        (truthyS u.tags = true → (applyFields u now s).tags = u.tags.getD [])) ∧
    (∀ s ∈ st.table, s.id ≠ id → s ∈ (updateSession id u now st).2.table) := by
  by_cases hT : hasTruthyFields u = true
  · refine ⟨?_, ?_, ?_, ?_⟩
    · simp only [updateSession, hT, Bool.not_true, Bool.false_eq_true, if_false,
        decide_eq_true_eq]
      rw [← List.countP_eq_length_filter, List.countP_pos_iff]
      constructor
      · rintro ⟨s, hs, hsid⟩
        exact ⟨trivial, s, hs, beq_iff_eq.1 hsid⟩
      · rintro ⟨-, s, hs, hsid⟩
        exact ⟨s, hs, beq_iff_eq.2 hsid⟩
    · intro hF
      rw [hT] at hF
      cases hF
    · intro _ s hs hsid
      refine ⟨?_, applyFields_updated_at u now s, fun ht => applyFields_tags_of_truthy u now s ht⟩
      simp only [updateSession, hT, Bool.not_true, Bool.false_eq_true, if_false]
      apply List.mem_map.2
      exact ⟨s, hs, by simp [hsid]⟩
    · intro s hs hsid
      simp only [updateSession, hT, Bool.not_true, Bool.false_eq_true, if_false]
      apply List.mem_map.2
      refine ⟨s, hs, ?_⟩
      rw [if_neg]
      simp [hsid]
  · rw [Bool.not_eq_true] at hT
    have hres : updateSession id u now st = (false, st) := by
      simp [updateSession, hT]
    refine ⟨?_, fun _ => hres, ?_, ?_⟩
    · rw [hres]
      simp [hT]
    · intro hcontra
      rw [hT] at hcontra
      cases hcontra
    · intro s hs _
      rw [hres]
      exact hs

/-- A partial update whose only entry is a truthy title. -/
def uTitle : PartialUpdate := { title := some (str "new") }

theorem c4_amended_witness :
    applyFields uTitle now1 sess0 ∈ (updateSession 0 uTitle now1 st0).2.table ∧
    (applyFields uTitle now1 sess0).updated_at = now1 :=
  ⟨((c4_amended 0 uTitle now1 st0).2.2.1 (by decide) sess0 (by simp [st0]) rfl).1,
   ((c4_amended 0 uTitle now1 st0).2.2.1 (by decide) sess0 (by simp [st0]) rfl).2.1⟩

/-- C10: every `updateSession` call leaves `id`, `agent_id`, `agent_type`,
`project_context` and `created_at` of every row unchanged whatever the
partial contains; a falsy (absent or empty) title / original_content / tags
entry leaves that field unchanged; and a partial with no truthy updatable
entry returns false without touching the store, even when the id exists. -/
theorem c10_update_frame (id : Nat) (u : PartialUpdate) (now : Str) (st : Store) :
    List.Forall₂ (fun s s' =>
        s'.id = s.id ∧ s'.agent_id = s.agent_id ∧ s'.agent_type = s.agent_type ∧
        s'.project_context = s.project_context ∧ s'.created_at = s.created_at ∧
        (truthyS u.title = false → s'.title = s.title) ∧
        (truthyS u.original_content = false → s'.original_content = s.original_content) ∧
        (truthyS u.tags = false → s'.tags = s.tags))
      st.table (updateSession id u now st).2.table ∧
    (hasTruthyFields u = false → updateSession id u now st = (false, st)) := by
  by_cases hT : hasTruthyFields u = true
  · constructor
    · simp only [updateSession, hT, Bool.not_true, Bool.false_eq_true, if_false]
      rw [List.forall₂_map_right_iff]
      apply List.forall₂_same.2
      intro s _
      split_ifs with hc
      · exact ⟨applyFields_id u now s, applyFields_agent_id u now s,
          applyFields_agent_type u now s, applyFields_project_context u now s,
          applyFields_created_at u now s,
          fun h => applyFields_title_of_falsy u now s h,
          fun h => applyFields_content_of_falsy u now s h,
          fun h => applyFields_tags_of_falsy u now s h⟩
      · exact ⟨rfl, rfl, rfl, rfl, rfl, fun _ => rfl, fun _ => rfl, fun _ => rfl⟩
    · intro hcontra
      rw [hT] at hcontra
      cases hcontra
  · rw [Bool.not_eq_true] at hT
    have hres : updateSession id u now st = (false, st) := by
      simp [updateSession, hT]
    constructor
    · rw [hres]
      apply List.forall₂_same.2
      intro s _
      exact ⟨rfl, rfl, rfl, rfl, rfl, fun _ => rfl, fun _ => rfl, fun _ => rfl⟩
    · exact fun _ => hres

/-- A partial update carrying only a field `updateSession` never reads. -/
def uAgent : PartialUpdate := { agent_id := some (str "x") }

theorem c10_witness : updateSession 0 uAgent now1 st0 = (false, st0) :=
  (c10_update_frame 0 uAgent now1 st0).2 (by decide)

/-- C6: `deleteOldSessions` with the computed cutoff removes exactly the
rows whose `created_at` is below the cutoff (SQLite text order), keeps every
other row, and returns the number of rows actually removed. -/
theorem c6_delete_old (cutoff : Str) (st : Store) :
    ((deleteOldSessions cutoff st).1 =
        st.table.length - (deleteOldSessions cutoff st).2.table.length) ∧
    (∀ s ∈ st.table,
        (s ∈ (deleteOldSessions cutoff st).2.table ↔ strLtb s.created_at cutoff = false)) ∧
    (∀ s ∈ (deleteOldSessions cutoff st).2.table, s ∈ st.table) := by
  refine ⟨?_, ?_, ?_⟩
  · simp only [deleteOldSessions]
    have h := List.length_eq_length_filter_add
      (l := st.table) (fun s => strLtb s.created_at cutoff)
    omega
  · intro s hs
    simp only [deleteOldSessions, List.mem_filter]
    constructor
    · rintro ⟨-, hcond⟩
      rwa [Bool.not_eq_true'] at hcond
    · intro hcond
      exact ⟨hs, by rwa [Bool.not_eq_true']⟩
  · intro s hs
    simp only [deleteOldSessions] at hs
    exact (List.mem_filter.1 hs).1

/-- An old session created in 2020. -/
def sessOld : ChatSession :=
  { sess0 with
    id := 5,
    created_at := str "2020-01-01T00:00:00.000Z",
    updated_at := str "2020-01-01T00:00:00.000Z" }

/-- A store holding a recent and an old session. -/
def stDel : Store := { table := [sess0, sessOld], fts := none, nextId := 6 }

/-- A cutoff between the two creation dates. -/
def cut1 : Str := str "2023-01-01T00:00:00.000Z"

theorem c6_witness : sess0 ∈ (deleteOldSessions cut1 stDel).2.table :=
  ((c6_delete_old cut1 stDel).2.1 sess0 (by simp [stDel])).mpr (by decide)

/-- C9: any filter set with a positive (truthy) offset but a falsy (absent
or zero) limit makes `searchSessions` build `... OFFSET ?` with no LIMIT
clause, which SQLite rejects at prepare time, so the call fails instead of
returning a page; being a SELECT it reads no rows and the store, which the
function never writes, is unchanged. -/
theorem c9_offset_without_limit (m : Str → FtsEntry → Bool) (f : SearchFilters)
    (st : Store) (k : Int) (hoff : f.offset = some k) (hk : 0 < k)
    (hlim : truthyN f.limit = false) :
    searchSessions m f st = .error .prepareFailed := by
  unfold searchSessions
  have hofftrue : truthyN f.offset = true := by
    simp only [truthyN, hoff, bne_iff_ne]
    omega
  rw [hofftrue, hlim]
  simp

/-- A filter set carrying only a positive offset. -/
def fOff : SearchFilters := { offset := some 5 }

theorem c9_witness : searchSessions titleExactMatch fOff st0 = .error .prepareFailed :=
  c9_offset_without_limit titleExactMatch fOff st0 5 rfl (by decide) rfl

/-- C3: on the fallback path, a non-empty query occurring verbatim inside a
stored session's `original_content` always finds that session; the result
set is exactly the rows passing the OR-combined case-insensitive LIKE over
title, original_content and the serialized tags, ordered by `created_at`
descending. -/
theorem c3_fallback_substring (m : Str → FtsEntry → Bool) (st : Store) (q : Str)
    (s : ChatSession) (hfts : st.fts = none) (hq : q ≠ [])
    (hs : s ∈ st.table) (hsub : q <:+: s.original_content) :
    ∃ rs, searchSessions m { query := some q } st = .ok rs ∧ s ∈ rs ∧
      rs.Sorted createdDesc ∧
      (∀ t, t ∈ rs ↔ t ∈ st.table ∧ fallbackCond q t = true) := by
  have hqe : q.isEmpty = false := by
    cases q with
    | nil => exact absurd rfl hq
    | cons a l => rfl
  refine ⟨sortByCreatedDesc (st.table.filter (fallbackCond q)), ?_, ?_, ?_, ?_⟩
  · simp [searchSessions, truthyN, searchBase, hfts, hqe, applyFilters, sortRows, truthyS]
  · rw [sortByCreatedDesc, List.mem_insertionSort]
    refine List.mem_filter.2 ⟨hs, ?_⟩
    unfold fallbackCond
    rw [sqlLike_of_substring q s.original_content hsub]
    simp
  · exact List.sorted_insertionSort createdDesc _
  · intro t
    rw [sortByCreatedDesc, List.mem_insertionSort, List.mem_filter]

/-- A session whose content contains the word scheduled. -/
def sess1 : ChatSession :=
  { id := 1, title := str "planning", agent_id := str "a", agent_type := .other,
    project_context := none, original_content := str "the deploy is scheduled now",
    tags := str "[]", created_at := str "2024-03-01T00:00:00.000Z",
    updated_at := str "2024-03-01T00:00:00.000Z" }

/-- A fallback-capability store holding `sess1`. -/
def stFb : Store := { table := [sess1], fts := none, nextId := 2 }

theorem c3_witness :
    ∃ rs, searchSessions titleExactMatch { query := some (str "scheduled") } stFb = .ok rs ∧
      sess1 ∈ rs ∧ rs.Sorted createdDesc ∧
      (∀ t, t ∈ rs ↔ t ∈ stFb.table ∧ fallbackCond (str "scheduled") t = true) :=
  c3_fallback_substring titleExactMatch stFb (str "scheduled") sess1 rfl (by decide)
    (by simp [stFb]) (by decide)

/-- A minimal distinct session for the oversize store. -/
def mkSess (n : Nat) : ChatSession :=
  { id := n, title := str "t", agent_id := str "a", agent_type := .other,
    project_context := none, original_content := str "c", tags := str "[]",
    created_at := str "d", updated_at := str "d" }

/-- A store holding 101 sessions, one more than the route validator's
maximum limit of 100. -/
def bigStore : Store := { table := (List.range 101).map mkSess, fts := none, nextId := 101 }

/-- C5 counterexample: with `limit` absent the database-level
`searchSessions` adds no LIMIT clause at all, so a store of 101 rows
returns 101 results — more than the hard server maximum of 100 that
`validateSearchParams` enforces at the route. -/
theorem c5_counterexample :
    (match searchSessions titleExactMatch {} bigStore with
     | .ok rs => rs.length
     | .error _ => 0) = 101 := by decide

/-- The limit check of `validateSearchParams` (server.ts:785-787): a present
limit is accepted iff it lies in 1..100. -/
def validateLimitOk : Option Int → Bool
  | some x => !(decide (x < 1) || decide (100 < x))
  | none => true

/-- C5 as amended: `searchSessions` itself caps the result count at
`filters.limit` only when that limit is present and positive; the hard
maximum of 100 exists only at the routing layer, whose
`validateSearchParams` admits exactly the limits 1..100, under which the
returned count is also at most 100. With `limit` absent or zero the
database layer applies no cap at all. -/
theorem c5_amended (m : Str → FtsEntry → Bool) (f : SearchFilters) (st : Store)
    (n : Int) (hlim : f.limit = some n) (hpos : 0 < n) :
    ∃ rs, searchSessions m f st = .ok rs ∧ rs.length ≤ n.toNat ∧
      (validateLimitOk f.limit = true → rs.length ≤ 100) := by
  have htr : truthyN f.limit = true := by
    simp only [truthyN, hlim, bne_iff_ne]
    omega
  have hneg : ¬ (f.limit.getD 0 < 0) := by
    rw [hlim]
    simp only [Option.getD_some]
    omega
  refine ⟨(if truthyN f.offset then
      (sortRows f st (applyFilters f (searchBase m f st))).drop (f.offset.getD 0).toNat
    else sortRows f st (applyFilters f (searchBase m f st))).take (f.limit.getD 0).toNat,
    ?_, ?_, ?_⟩
  · unfold searchSessions
    rw [htr]
    simp only [Bool.not_true, Bool.and_false, Bool.false_eq_true, if_false, if_true,
      if_neg hneg]
  · rw [hlim]
    simp only [Option.getD_some]
    exact List.length_take_le n.toNat _
  · intro hv
    rw [hlim] at hv
    simp only [validateLimitOk, Bool.not_eq_true', Bool.or_eq_false_iff,
      decide_eq_false_iff_not, not_lt] at hv
    rw [hlim]
    simp only [Option.getD_some]
    have h2 : n.toNat ≤ 100 := by omega
    exact le_trans (List.length_take_le n.toNat _) h2

theorem c5_amended_witness :
    ∃ rs, searchSessions titleExactMatch { limit := some 3 } st0 = .ok rs ∧
      rs.length ≤ (3 : Int).toNat ∧
      (validateLimitOk ({ limit := some 3 } : SearchFilters).limit = true →
        rs.length ≤ 100) :=
  c5_amended titleExactMatch { limit := some 3 } st0 3 rfl (by decide)

/-- Input for the stale-title scenario: a session titled alpha. -/
def inpA : SessionInput :=
  { title := str "alpha", agent_id := str "a", agent_type := .claude,
    project_context := none, original_content := str "xcontent", tags := str "[]" }

/-- A partial update retitling the session to beta. -/
def uBeta : PartialUpdate := { title := some (str "beta") }

/-- Create a session titled alpha, then retitle it to beta. -/
def opsStale : List Op :=
  [Op.create inpA (str "2024-01-01T00:00:00.000Z"),
   Op.update 0 uBeta (str "2024-01-02T00:00:00.000Z")]

/-- Create a session titled alpha, then delete it. -/
def opsGhost : List Op :=
  [Op.create inpA (str "2024-01-01T00:00:00.000Z"), Op.delete 0]

/-- C1 (code bug): the index-consistency invariant is the stated intent of
the triggers, but `createTables` declares `chat_sessions_fts` with
`content='chat_sessions'` (an external-content FTS5 table) while
`createFTSTriggers` installs the trigger pattern for an ordinary FTS5
table. Evaluating the store at the failing inputs: after a create followed
by a title update, the only session is titled beta, yet the indexed-path
exact-title search for alpha still returns it, because the AFTER UPDATE
statement could not remove the old title's postings; and after a create
followed by a delete the table is empty while the index still carries the
deleted session's entry, so the index is not the projection of the table. -/
theorem c1_code_bug :
    ((applyOps (initStore true) opsStale).table.map (fun s => s.title) = [str "beta"]) ∧
    ((match searchSessions titleExactMatch { query := some (str "alpha") }
        (applyOps (initStore true) opsStale) with
      | .ok rs => rs.map (fun s => s.id)
      | .error _ => []) = [0]) ∧
    ((applyOps (initStore true) opsGhost).table = []) ∧
    ((applyOps (initStore true) opsGhost).fts ≠
      some ((applyOps (initStore true) opsGhost).table.map projEntry)) := by
  decide

theorem bump_fst (w : Str) : ∀ (acc : List (Str × Nat)) (p : Str × Nat),
    p ∈ bump w acc → p.1 = w ∨ p ∈ acc
  | [], p, hp => by
    simp only [bump, List.mem_singleton] at hp
    subst hp
    exact Or.inl rfl
  | (x, n) :: rest, p, hp => by
    simp only [bump] at hp
    split_ifs at hp with hx
    · rcases List.mem_cons.1 hp with rfl | hmem
      · exact Or.inl (beq_iff_eq.1 hx)
      · exact Or.inr (List.mem_cons_of_mem _ hmem)
    · rcases List.mem_cons.1 hp with rfl | hmem
      · exact Or.inr (List.mem_cons_self _ _)
      · rcases bump_fst w rest p hmem with h | h
        · exact Or.inl h
        · exact Or.inr (List.mem_cons_of_mem _ h)

theorem wordCounts_fst (ws : List Str) :
    ∀ (acc : List (Str × Nat)) (p : Str × Nat),
      p ∈ ws.foldl (fun acc w => bump w acc) acc → p ∈ acc ∨ p.1 ∈ ws := by
  induction ws with
  | nil => exact fun acc p hp => Or.inl hp
  | cons w ws ih =>
    intro acc p hp
    rw [List.foldl_cons] at hp
    rcases ih (bump w acc) p hp with h | h
    · rcases bump_fst w acc p h with h1 | h1
      · exact Or.inr (h1 ▸ List.mem_cons_self _ _)
      · exact Or.inl h1
    · exact Or.inr (List.mem_cons_of_mem _ h)

/-- C7: `findSimilarSessions` tokenizes the lowercased text into word
tokens, keeps only tokens longer than 3 characters that are not stop words,
ranks them by in-text frequency (descending), takes the top 8, and issues
them OR-joined as one MATCH query on the indexed path or as three LIKE
predicates per token on the fallback path; when no qualifying token remains
it returns the empty list. -/
theorem c7_similarity (c : Str) :
    (∀ t ∈ extractKeyTermsFromContent c, 3 < t.length ∧ stopWords.contains t = false) ∧
    (extractKeyTermsFromContent c).length ≤ 8 ∧
    extractKeyTermsFromContent c = ((sortedWordCounts c).take 8).map Prod.fst ∧
    (sortedWordCounts c).Sorted countDesc ∧
    (∀ (m : Str → FtsEntry → Bool) (n : Int) (st : Store),
        extractKeyTermsFromContent c = [] → findSimilarSessions m c n st = []) ∧
    (∀ (m : Str → FtsEntry → Bool) (n : Int) (st : Store),
        st.fts = none → extractKeyTermsFromContent c ≠ [] →
        findSimilarSessions m c n st =
          (if n < 0 then
            sortByCreatedDesc (st.table.filter
              (fun s => (extractKeyTermsFromContent c).any (fun t => fallbackCond t s)))
          else
            (sortByCreatedDesc (st.table.filter
              (fun s => (extractKeyTermsFromContent c).any
                (fun t => fallbackCond t s)))).take n.toNat)) ∧
    (∀ (m : Str → FtsEntry → Bool) (n : Int) (st : Store) (entries : List FtsEntry),
        st.fts = some entries → extractKeyTermsFromContent c ≠ [] →
        findSimilarSessions m c n st =
          (if n < 0 then
            st.table.filter (fun s => entries.any (fun e => e.id == s.id &&
              m (List.intercalate (str " OR ") (extractKeyTermsFromContent c)) e))
          else
            (st.table.filter (fun s => entries.any (fun e => e.id == s.id &&
              m (List.intercalate (str " OR ") (extractKeyTermsFromContent c)) e))).take
              n.toNat)) := by
  refine ⟨?_, ?_, rfl, List.sorted_insertionSort countDesc _, ?_, ?_, ?_⟩
  · intro t ht
    unfold extractKeyTermsFromContent at ht
    obtain ⟨p, hp, rfl⟩ := List.mem_map.1 ht
    have hp2 : p ∈ sortedWordCounts c := List.take_subset 8 _ hp
    have hp3 : p ∈ wordCounts (contentWords c) := by
      rw [sortedWordCounts] at hp2
      exact (List.mem_insertionSort countDesc).1 hp2
    have hp4 : p.1 ∈ contentWords c := by
      rcases wordCounts_fst (contentWords c) [] p hp3 with h | h
      · cases h
      · exact h
    unfold contentWords at hp4
    have h5 := List.mem_filter.1 hp4
    have h6 := List.mem_filter.1 h5.1
    refine ⟨by simpa using h6.2, ?_⟩
    have := h5.2
    rwa [Bool.not_eq_true'] at this
  · unfold extractKeyTermsFromContent
    rw [List.length_map]
    exact le_trans (List.length_take_le 8 _) (le_refl 8)
  · intro m n st hempty
    unfold findSimilarSessions
    rw [hempty]
    rfl
  · intro m n st hfts hne
    have hie : (extractKeyTermsFromContent c).isEmpty = false := by
      cases hc : extractKeyTermsFromContent c with
      | nil => exact absurd hc hne
      | cons a t => rfl
    unfold findSimilarSessions
    simp only [hie, hfts, Bool.false_eq_true, if_false]
  · intro m n st entries hfts hne
    have hie : (extractKeyTermsFromContent c).isEmpty = false := by
      cases hc : extractKeyTermsFromContent c with
      | nil => exact absurd hc hne
      | cons a t => rfl
    unfold findSimilarSessions
    simp only [hie, hfts, Bool.false_eq_true, if_false]

theorem c7_witness : findSimilarSessions titleExactMatch (str "an owl ate") 5 st0 = [] :=
  (c7_similarity (str "an owl ate")).2.2.2.2.1 titleExactMatch 5 st0 (by decide)

/-- A content consisting of one quoted 30-character term. -/
def cex8 : Str := '"' :: (List.replicate 30 'a' ++ ['"'])

/-- C8 counterexample: the content holds exactly one quoted substring and
its length 30 lies inside the claimed 3–30 range, yet `extractKeyTopics`
returns nothing — the post-regex length filter `> 2 && < 30` drops
length-30 matches, so the output does not contain every quoted substring of
length 3–30. -/
theorem c8_counterexample :
    quotedScan cex8 = [List.replicate 30 'a'] ∧
    (List.replicate 30 'a').length = 30 ∧
    extractKeyTopics cex8 = [] := by decide

/-- C8 as amended: `keyTopics` is the insertion-ordered, first-occurrence
deduplication of the whole-word vocabulary matches, the quoted substrings of
length 3 to 29 (the regex admits inner lengths up to 30 but the extra
length check excludes exactly the length-30 matches), and the detected
file-extension tokens, truncated to at most 20 entries. -/
theorem c8_amended (content : Str) :
    extractKeyTopics content =
      (dedupKeepFirst (kwTopics content ++
        (((quotedScan content).map toLower).filter
          (fun t => decide (3 ≤ t.length ∧ t.length ≤ 29))) ++
        extTopics content)).take 20 ∧
    (extractKeyTopics content).length ≤ 20 := by
  have hfc : ((quotedScan content).map toLower).filter
        (fun t => decide (2 < t.length ∧ t.length < 30)) =
      ((quotedScan content).map toLower).filter
        (fun t => decide (3 ≤ t.length ∧ t.length ≤ 29)) :=
    List.filter_congr (fun t _ => by
      simp only [decide_eq_decide]
      omega)
  constructor
  · unfold extractKeyTopics quotedTopics
    rw [hfc]
  · exact List.length_take_le 20 _

end ChatContext
